import Mathlib

/-!
Shallow embedding of the `remote_exec` notebook extension
(`remote_exec.py`): a magic command that resolves fuzzy kernel names
against the installed kernelspec snapshot, lazily creates and caches one
`RemoteKernel` session per label in the notebook user namespace, and drives
a synchronous execute-and-collect round trip on each session.

Correspondence with the source:
* `resolve`, `substrMatches`, `wildMatches` — the name-matching cascade of
  `RemoteKernel.__init__` (lines 33-50).
* `KernelState`, `krestart`, `kexecuteCode`, `kshutdown` — the per-session
  state and the methods `_restart` (69-75), `_execute_code` (77-98) and
  `_shutdown` (66-67).  The external Jupyter collaborators (kernel manager,
  client, remote process) are modelled by `ExecEnv`/`Env`: the reply status
  of each message and the deserialized payload are environment inputs, and
  every message sent or report printed becomes an event in a trace.
* `parseLabels`, `createLoop`, `validateInputs`, `shutdownLoop`, `execLoop`,
  `run` — the body of `RemoteKernelMagics.remote_exec` (192-252), modelled
  from the point where the comma-separated option strings have been split.
  Python reference semantics are modelled with an explicit heap of kernel
  objects addressed by numeric ids; exception propagation is modelled by an
  `err` field, with all state mutations performed before the raise kept,
  exactly as in Python.
-/

namespace RemoteExec

/-- Bool test that the character list `hay` starts with the list `pre`. -/
def leadsWith : List Char → List Char → Bool
  | _, [] => true
  | [], _ :: _ => false
  | c :: cs, d :: ds => c == d && leadsWith cs ds

/-- Python `needle in hay` on strings: substring containment. -/
def containsSub : List Char → List Char → Bool
  | [], needle => needle.isEmpty
  | c :: t, needle => leadsWith (c :: t) needle || containsSub t needle

/-- Suffix of `hay` after the first occurrence of `needle`, `none` when
`needle` does not occur in `hay`. -/
def restAfter : List Char → List Char → Option (List Char)
  | [], needle => if needle.isEmpty then some [] else none
  | c :: t, needle =>
    if leadsWith (c :: t) needle then some ((c :: t).drop needle.length)
    else restAfter t needle

/-- Matchability under `re.search` of the pattern built by
`kernel_name.replace('_', '.*?')`: the literal segments occur in order as
disjoint substrings of the haystack.  Taking the earliest occurrence of each
segment is complete, because it leaves the longest suffix for the rest. -/
def wildSearch : List (List Char) → List Char → Bool
  | [], _ => true
  | seg :: rest, hay =>
    match restAfter hay seg with
    | none => false
    | some suffix => wildSearch rest suffix

/-- Python `str.split(sep)` on character lists; used for the underscore
segments of the wildcard pattern and for the `label:directory` split. -/
def splitOnChar (sep : Char) : List Char → List (List Char)
  | [] => [[]]
  | c :: t =>
    match splitOnChar sep t with
    | [] => [[]]
    | s :: ss => if c == sep then [] :: s :: ss else (c :: s) :: ss

/-- ASCII lowercasing of a character list, modelling `re.I`. -/
def lowerL (s : List Char) : List Char := s.map Char.toLower

/-- The specs containing `name` as a substring, in list order (source line
40: `sum(kernel_name in kernelspec for kernelspec in kernelspecs)`). -/
def substrMatches (name : String) (specs : List String) : List String :=
  specs.filter (fun sp => containsSub sp.toList name.toList)

/-- The specs matched, case-insensitively, by the wildcard pattern obtained
from `name` by replacing every underscore with a match-anything gap (source
lines 43-46). -/
def wildMatches (name : String) (specs : List String) : List String :=
  specs.filter (fun sp =>
    wildSearch (splitOnChar '_' (lowerL name.toList)) (lowerL sp.toList))

/-- Name resolution from `RemoteKernel.__init__` (lines 37-50): exact match,
else unique substring match, else unique wildcard match, else failure
(`ValueError`, modelled as `none`). -/
def resolve (name : String) (specs : List String) : Option String :=
  if name ∈ specs then some name
  else if (substrMatches name specs).length = 1 then (substrMatches name specs).head?
  else if (wildMatches name specs).length = 1 then (wildMatches name specs).head?
  else none

/-- Association-list read, modelling a Python dict lookup. -/
def lookupA {κ α : Type} [DecidableEq κ] : List (κ × α) → κ → Option α
  | [], _ => none
  | p :: t, k => if p.1 = k then some p.2 else lookupA t k

/-- Association-list write, modelling Python dict assignment: overwrite the
existing key or append a new one. -/
def setA {κ α : Type} [DecidableEq κ] : List (κ × α) → κ → α → List (κ × α)
  | [], k, v => [(k, v)]
  | p :: t, k, v => if p.1 = k then (k, v) :: t else p :: setA t k v

/-- Python `dict.update`: merge `upd` into `m`, the right operand winning
key by key. -/
def updateAssoc (m upd : List (String × String)) : List (String × String) :=
  upd.foldl (fun acc p => setA acc p.1 p.2) m

/-- State of one `RemoteKernel` object (one session).  `everStarted` is a
ghost history flag never read by the code; `alive` is the collaborator's
liveness as `is_alive()` reports it; `clientGen` counts the client handles
obtained so far; `captured` holds the non-underscore attributes injected by
`self.__dict__.update(pickle.loads(...))`; `shutdownCalls` counts the
`shutdown_kernel` requests sent to the collaborating kernel manager. -/
structure KernelState where
  kernelName : String
  fullName : String
  everStarted : Bool
  alive : Bool
  clientGen : Nat
  captured : List (String × String)
  shutdownCalls : Nat
  deriving DecidableEq

/-- Observable session-level events: messages sent to the collaborator and
error reports printed for the user. -/
inductive KEvent where
  | startCalled : KEvent
  | restartCalled : KEvent
  | primed : KEvent
  | chdirSent : String → KEvent
  | chdirErrorReported : String → String → KEvent
  | execSent : String → List String → KEvent
  | execErrorReported : String → String → KEvent
  deriving DecidableEq

/-- Collaborator behaviour for one `_execute_code` call: the status of the
reply to the optional `os.chdir` message, the status and error data of the
reply to the main execute message, and the deserialized pickle payload
delivered when that status is ok. -/
structure ExecEnv where
  chdirOk : Bool
  chdirEname : String
  chdirEvalue : String
  execOk : Bool
  ename : String
  evalue : String
  payload : List (String × String)

/-- Source `RemoteKernel._restart` (lines 69-75): when the kernel manager
reports the kernel not alive, `start_kernel()` is called, otherwise
`restart_kernel()`; in both cases a fresh client handle is obtained and the
priming exchange (`import pickle, os`) is re-run. -/
def krestart (k : KernelState) : KernelState × List KEvent :=
  if !k.alive then
    ({ k with alive := true, everStarted := true, clientGen := k.clientGen + 1 },
      [KEvent.startCalled, KEvent.primed])
  else
    ({ k with alive := true, clientGen := k.clientGen + 1 },
      [KEvent.restartCalled, KEvent.primed])

/-- Python truthiness of the `directory` value: `None` and `""` are falsy. -/
def dirTruthy : Option String → Bool
  | none => false
  | some d => !(d == "")

/-- Source `RemoteKernel._execute_code` (lines 77-98): restart when not
alive; optionally send `os.chdir` (a non-ok reply is only printed); send the
code with the pickled output expression as a user expression; a non-ok reply
is printed and leaves `captured` untouched, an ok reply merges the
deserialized payload into the object dictionary.  The function is total:
remote failures are reported as events, never raised. -/
def kexecuteCode (e : ExecEnv) (k : KernelState) (code : String)
    (dir : Option String) (outs : List String) : KernelState × List KEvent :=
  let rk := if !k.alive then krestart k else (k, [])
  let ev2 := if dirTruthy dir then
      KEvent.chdirSent (dir.getD "") ::
        (if e.chdirOk then [] else [KEvent.chdirErrorReported e.chdirEname e.chdirEvalue])
    else []
  if e.execOk then
    ({ rk.1 with captured := updateAssoc rk.1.captured e.payload },
      rk.2 ++ ev2 ++ [KEvent.execSent code outs])
  else
    (rk.1, rk.2 ++ ev2 ++ [KEvent.execSent code outs,
      KEvent.execErrorReported e.ename e.evalue])

/-- Source `RemoteKernel._shutdown` (lines 66-67): unconditionally forward
`shutdown_kernel()` to the collaborating kernel manager.  There is no guard
and no terminal-state flag in the source. -/
def kshutdown (k : KernelState) : KernelState :=
  { k with alive := false, shutdownCalls := k.shutdownCalls + 1 }

/-- A value bound in the notebook user namespace, as far as the magic is
concerned: a `RemoteKernel` object (referenced through a heap id), a string
dictionary, or anything else. -/
inductive NsVal where
  | kern : Nat → NsVal
  | dict : List (String × String) → NsVal
  | other : NsVal
  deriving DecidableEq

/-- State owned by `RemoteKernelMagics` together with the shell namespace.
Kernel objects live in `heap` (Python object identity is the numeric id);
`userNs` models `self.shell.user_ns`; `registry` models `self.kernels`;
`nextId` is the allocator for fresh kernel object ids. -/
structure MagicsState where
  heap : List (Nat × KernelState)
  nextId : Nat
  userNs : List (String × NsVal)
  registry : List (String × NsVal)
  deriving DecidableEq

/-- Exceptions `remote_exec` can raise: resolution failure and start failure
from `RemoteKernel.__init__`, the too-many-values unpacking error of the
`label:directory` split, the two input-validation errors, and the attribute
error hit when a label is bound to a non-kernel object. -/
inductive RunError where
  | resolution : String → RunError
  | startFail : String → RunError
  | unpack : String → RunError
  | missingInput : String → RunError
  | missingInputKey : String → String → RunError
  | attrError : String → RunError
  deriving DecidableEq

/-- Batch-level events: session creation, a `shutdown_kernel` request, or a
session-level event of the kernel bound to a label. -/
inductive REvent where
  | created : String → Nat → REvent
  | terminate : String → Nat → REvent
  | kev : String → Nat → KEvent → REvent
  deriving DecidableEq

/-- Result of a complete or aborted `remote_exec` call: the state as mutated
so far, the events emitted so far, and the exception that aborted the call,
if any.  As in Python, mutations made before a raise stay visible. -/
structure RunResult where
  state : MagicsState
  events : List REvent
  err : Option RunError
  deriving DecidableEq

/-- The external collaborators seen by a whole batch: the kernelspec
snapshot, which full names `start_kernel` succeeds for, and the per-label
reply behaviour of the remote kernels. -/
structure Env where
  kernelspecs : List String
  startOk : String → Bool
  execEnv : String → ExecEnv

/-- Parsed magic arguments, taken after the front end has split the
comma-separated option strings: the `-k` labels, the `-i` input variable
names, the `-o` output variable names, the `-s` flag, the positional code
words, and the cell body (`none` in line-magic mode). -/
structure RunArgs where
  kernelsArg : List String
  inputVars : List String
  outputVars : List String
  shutdownFlag : Bool
  codeArgs : List String
  cell : Option String

/-- Source `RemoteKernel.__init__` (lines 33-57): resolve the label against
the kernelspec snapshot (`ValueError` when that fails), start a kernel for
the resolved name, obtain a client and run the priming exchange. -/
def createKernel (env : Env) (name : String) : Except RunError KernelState :=
  match resolve name env.kernelspecs with
  | none => Except.error (RunError.resolution name)
  | some full =>
    if env.startOk full then
      Except.ok { kernelName := name, fullName := full, everStarted := true,
                  alive := true, clientGen := 1, captured := [], shutdownCalls := 0 }
    else Except.error (RunError.startFail name)

/-- Occurrences of a character in a character list. -/
def countChar (c : Char) : List Char → Nat
  | [] => 0
  | d :: t => (if d == c then 1 else 0) + countChar c t

/-- Bool membership of a character in a character list. -/
def containsChar (c : Char) : List Char → Bool
  | [] => false
  | d :: t => d == c || containsChar c t

/-- Number of colons in a label argument. -/
def countColons (s : String) : Nat := countChar ':' s.toList

/-- Source lines 212-214: `if ':' in kernel_name:` then
`kernel_names[i], initial_directories[i] = kernel_name.split(':')`.  The
two-place unpacking raises `ValueError` unless the split yields exactly two
parts. -/
def parseLabel (l : String) : Except RunError (String × Option String) :=
  if containsChar ':' l.toList then
    match splitOnChar ':' l.toList with
    | [a, b] => Except.ok (String.mk a, some (String.mk b))
    | _ => Except.error (RunError.unpack l)
  else Except.ok (l, none)

/-- The parsing loop over all `-k` labels; the first offending label raises
and aborts the call. -/
def parseLabels : List String → Except RunError (List (String × Option String))
  | [] => Except.ok []
  | l :: rest =>
    match parseLabel l with
    | Except.error e => Except.error e
    | Except.ok p =>
      match parseLabels rest with
      | Except.error e => Except.error e
      | Except.ok ps => Except.ok (p :: ps)

/-- Source line 204: `code = ' '.join(args.code) + '\n' + code`, where the
second `code` is `''` for a line magic and the cell body for a cell magic.
Note the unconditional newline in the middle. -/
def combineCode (codeArgs : List String) (cell : Option String) : String :=
  String.intercalate " " codeArgs ++ "\n" ++ cell.getD ""

/-- Source lines 215-218: for each label, construct a `RemoteKernel` exactly
when the label is unbound in the user namespace, then mirror the namespace
binding into `self.kernels` in both cases. -/
def createLoop (env : Env) : List String → MagicsState → RunResult
  | [], s => ⟨s, [], none⟩
  | l :: rest, s =>
    match lookupA s.userNs l with
    | some v =>
      createLoop env rest { s with registry := setA s.registry l v }
    | none =>
      match createKernel env l with
      | Except.error e => ⟨s, [], some e⟩
      | Except.ok k =>
        let id := s.nextId
        let r := createLoop env rest
          { s with heap := s.heap ++ [(id, k)], nextId := id + 1,
                   userNs := setA s.userNs l (NsVal.kern id),
                   registry := setA s.registry l (NsVal.kern id) }
        ⟨r.state, REvent.created l id :: r.events, r.err⟩

/-- Source lines 228-230: every requested label must be a key of the input
dictionary, otherwise `KeyError`. -/
def validateVarKeys (d : List (String × String)) (dictName : String) :
    List String → Option RunError
  | [] => none
  | l :: rest =>
    if (lookupA d l).isSome then validateVarKeys d dictName rest
    else some (RunError.missingInputKey l dictName)

/-- Source lines 225-230: each `-i` name must be bound to a dictionary in
the user namespace (`ValueError` otherwise), and that dictionary must have a
key for every label (`KeyError` otherwise). -/
def validateInputs (ns : List (String × NsVal)) (labels : List String) :
    List String → Option RunError
  | [] => none
  | v :: rest =>
    match lookupA ns v with
    | some (NsVal.dict d) =>
      match validateVarKeys d v labels with
      | some e => some e
      | none => validateInputs ns labels rest
    | _ => some (RunError.missingInput v)

/-- Source lines 239-241: with `-s`, shut down every listed kernel through
its user-namespace binding. -/
def shutdownLoop : List String → MagicsState → RunResult
  | [], s => ⟨s, [], none⟩
  | l :: rest, s =>
    match lookupA s.userNs l with
    | some (NsVal.kern id) =>
      match lookupA s.heap id with
      | some k =>
        let r := shutdownLoop rest { s with heap := setA s.heap id (kshutdown k) }
        ⟨r.state, REvent.terminate l id :: r.events, r.err⟩
      | none => ⟨s, [], some (RunError.attrError l)⟩
    | _ => ⟨s, [], some (RunError.attrError l)⟩

/-- Source lines 248-250: substitute every occurrence of the brace-wrapped
input variable name with that variable's per-label value, one variable after
the other. -/
def substCode (ns : List (String × NsVal)) (inputVars : List String)
    (label : String) (code : String) : String :=
  inputVars.foldl (fun acc v =>
    let value := match lookupA ns v with
      | some (NsVal.dict d) => (lookupA d label).getD ""
      | _ => ""
    acc.replace ("\x7b" ++ v ++ "\x7d") value) code

/-- Source lines 244-252: the per-label execution loop, driving
`_execute_code` on each label's namespace binding in the original order. -/
def execLoop (env : Env) (a : RunArgs) (code : String) :
    List (String × Option String) → MagicsState → RunResult
  | [], s => ⟨s, [], none⟩
  | (l, d) :: rest, s =>
    match lookupA s.userNs l with
    | some (NsVal.kern id) =>
      match lookupA s.heap id with
      | some k =>
        let cc := substCode s.userNs a.inputVars l code
        let kr := kexecuteCode (env.execEnv l) k cc d a.outputVars
        let r := execLoop env a code rest { s with heap := setA s.heap id kr.1 }
        ⟨r.state, kr.2.map (REvent.kev l id) ++ r.events, r.err⟩
      | none => ⟨s, [], some (RunError.attrError l)⟩
    | _ => ⟨s, [], some (RunError.attrError l)⟩

/-- Phases of `remote_exec` after input validation: the optional `-s`
shutdown pass (lines 239-241), then the execution loop guarded by Python
truthiness of the combined code string (line 244). -/
def runPhase3 (env : Env) (a : RunArgs) (pairs : List (String × Option String))
    (r1 : RunResult) : RunResult :=
  let labels := pairs.map Prod.fst
  let r2 := if a.shutdownFlag then shutdownLoop labels r1.state
            else ⟨r1.state, [], none⟩
  match r2.err with
  | some e => ⟨r2.state, r1.events ++ r2.events, some e⟩
  | none =>
    let code := combineCode a.codeArgs a.cell
    if code = "" then ⟨r2.state, r1.events ++ r2.events, none⟩
    else
      let r3 := execLoop env a code pairs r2.state
      ⟨r3.state, r1.events ++ r2.events ++ r3.events, r3.err⟩

/-- Phases of `remote_exec` after the `label:directory` parsing: the session
creation loop (lines 215-218), then input validation (lines 225-230), then
`runPhase3`. -/
def runPhase2 (env : Env) (a : RunArgs) (pairs : List (String × Option String))
    (s : MagicsState) : RunResult :=
  let labels := pairs.map Prod.fst
  let r1 := createLoop env labels s
  match r1.err with
  | some _ => r1
  | none =>
    match validateInputs r1.state.userNs labels a.inputVars with
    | some e => ⟨r1.state, r1.events, some e⟩
    | none => runPhase3 env a pairs r1

/-- Source `RemoteKernelMagics.remote_exec` (lines 192-252): combine line
and cell code, parse the `label:directory` arguments, ensure one session per
label, validate the input dictionaries, optionally shut the kernels down,
then run the per-label execution loop.  Mutations performed before an
exception stay visible, exactly as in Python. -/
def run (env : Env) (a : RunArgs) (s : MagicsState) : RunResult :=
  match parseLabels a.kernelsArg with
  | Except.error e => ⟨s, [], some e⟩
  | Except.ok pairs => runPhase2 env a pairs s

/-- Recognizer for session-creation events. -/
def isCreatedEvent : REvent → Bool
  | REvent.created _ _ => true
  | _ => false

/-- Recognizer for the two batch-validation errors of lines 225-230. -/
def isValidationError : RunError → Bool
  | RunError.missingInput _ => true
  | RunError.missingInputKey _ _ => true
  | _ => false

/-- How many sessions were created for a given label in a trace. -/
def countCreated (l : String) (evs : List REvent) : Nat :=
  (evs.filter (fun ev => match ev with
    | REvent.created l' _ => l' == l
    | _ => false)).length

/-- Environment action between two magic invocations: every kernel process
dies.  Only liveness changes; no namespace binding is touched. -/
def killAll (s : MagicsState) : MagicsState :=
  { s with heap := s.heap.map (fun p => (p.1, { p.2 with alive := false })) }

/-- The kernelspec snapshot used by the specification's examples. -/
def specs3 : List String := ["py_cpu", "py_gpu", "r_base"]

/-- A collaborator whose replies are all ok and deliver an empty payload. -/
def benignExec : ExecEnv :=
  { chdirOk := true, chdirEname := "", chdirEvalue := "", execOk := true,
    ename := "", evalue := "", payload := [] }

/-- A collaborator whose execute reply reports a remote exception. -/
def failingExec : ExecEnv :=
  { benignExec with
      execOk := false,
      ename := "ZeroDivisionError",
      evalue := "division by zero" }

/-- A fresh shell: empty heap, empty namespace, empty registry. -/
def emptyState : MagicsState := { heap := [], nextId := 0, userNs := [], registry := [] }

/-- A running session holding one previously captured result. -/
def sampleKernel : KernelState :=
  { kernelName := "py_cpu", fullName := "py_cpu", everStarted := true, alive := true,
    clientGen := 1, captured := [("y", "2")], shutdownCalls := 0 }

/-- A session that was started earlier and whose process has since died. -/
def deadKernel : KernelState :=
  { kernelName := "py_cpu", fullName := "py_cpu", everStarted := true, alive := false,
    clientGen := 1, captured := [("y", "2")], shutdownCalls := 0 }

/-- Collaborators for the spec snapshot `specs3`, all starts succeeding and
all replies benign. -/
def envSpecs3 : Env :=
  { kernelspecs := specs3, startOk := fun _ => true, execEnv := fun _ => benignExec }

/-- Collaborators where the kernel behind the label `py_cpu` fails every
execution while all other kernels answer ok. -/
def envMixed : Env :=
  { kernelspecs := specs3, startOk := fun _ => true,
    execEnv := fun l => if l == "py_cpu" then failingExec else benignExec }

/-- Collaborators for the two-spec snapshot used by the validation example. -/
def envAB : Env :=
  { kernelspecs := ["spec_a", "spec_b"], startOk := fun _ => true,
    execEnv := fun _ => benignExec }

/-- The validation example of the claim: labels `a,b`, one input dictionary
`cfg` holding only the key `a`. -/
def argsValidation : RunArgs :=
  { kernelsArg := ["a", "b"], inputVars := ["cfg"], outputVars := [],
    shutdownFlag := false, codeArgs := [], cell := some "x=1" }

/-- Namespace holding only the input dictionary `cfg = {"a": "1"}`. -/
def stateValidation : MagicsState :=
  { emptyState with userNs := [("cfg", NsVal.dict [("a", "1")])] }

/-- A two-label batch whose first label resolves to nothing. -/
def argsBadFirst : RunArgs :=
  { kernelsArg := ["zz", "py_cpu"], inputVars := [], outputVars := [],
    shutdownFlag := false, codeArgs := ["x=1"], cell := none }

/-- A two-label batch, used with `envMixed` to let the first kernel fail. -/
def argsTwo : RunArgs :=
  { kernelsArg := ["py_cpu", "py_gpu"], inputVars := [], outputVars := [],
    shutdownFlag := false, codeArgs := [], cell := some "x=1" }

/-- A one-label batch with a cell body. -/
def argsOne : RunArgs :=
  { kernelsArg := ["py_cpu"], inputVars := [], outputVars := [],
    shutdownFlag := false, codeArgs := [], cell := some "x=1" }

/-- A line-magic invocation with no trailing code words and no cell. -/
def argsNoCode : RunArgs :=
  { kernelsArg := ["py_cpu"], inputVars := [], outputVars := [],
    shutdownFlag := false, codeArgs := [], cell := none }

/-- A label argument holding two colons. -/
def argsColon : RunArgs :=
  { kernelsArg := ["a:b:c"], inputVars := [], outputVars := [],
    shutdownFlag := false, codeArgs := [], cell := none }

/-- A shell whose registry still holds a stale entry for `py_cpu` while the
user namespace does not bind the label. -/
def stateRegistryGhost : MagicsState :=
  { emptyState with registry := [("py_cpu", NsVal.kern 77)] }

/-! ## General lemmas about the association-list primitives -/

theorem lookupA_setA_self {κ α : Type} [DecidableEq κ] (m : List (κ × α)) (k : κ) (v : α) :
    lookupA (setA m k v) k = some v := by
  induction m with
  | nil => simp [setA, lookupA]
  | cons p t ih =>
    by_cases h : p.1 = k
    · simp [setA, h, lookupA]
    · simp [setA, h, lookupA, ih]

theorem lookupA_setA_ne {κ α : Type} [DecidableEq κ] (m : List (κ × α)) (k k' : κ) (v : α)
    (hne : k' ≠ k) : lookupA (setA m k v) k' = lookupA m k' := by
  have hne' : ¬ k = k' := fun h => hne h.symm
  induction m with
  | nil => simp [setA, lookupA, hne']
  | cons p t ih =>
    by_cases h : p.1 = k
    · subst h
      simp [setA, lookupA, hne']
    · simp [setA, h, lookupA, ih]

/-! ## The combined code string is never empty (source line 204) -/

theorem combineCode_length (ca : List String) (c : Option String) :
    (combineCode ca c).length =
      (String.intercalate " " ca).length + 1 + (c.getD "").length := by
  unfold combineCode
  rw [String.length_append, String.length_append]
  have h1 : ("\n" : String).length = 1 := rfl
  rw [h1]

theorem combineCode_ne_empty (ca : List String) (c : Option String) :
    ¬ combineCode ca c = "" := by
  intro hh
  have h := congrArg String.length hh
  rw [combineCode_length] at h
  have h2 : ("" : String).length = 0 := rfl
  rw [h2] at h
  omega

/-! ## C1: the resolution cascade -/

/-- C1: name resolution applies exact match, then unique substring match,
then unique case-insensitive wildcard match, in strict priority order, the
first rule yielding a unique result winning, and fails otherwise; on the
spec snapshot of the claim, `py_c` resolves to `py_cpu`, `p_g` resolves to
`py_gpu`, and `py` fails. -/
theorem resolve_priority :
    (∀ (name : String) (specs : List String), name ∈ specs →
      resolve name specs = some name) ∧
    (∀ (name : String) (specs : List String), name ∉ specs →
      (substrMatches name specs).length = 1 →
      resolve name specs = (substrMatches name specs).head?) ∧
    (∀ (name : String) (specs : List String), name ∉ specs →
      (substrMatches name specs).length ≠ 1 → (wildMatches name specs).length = 1 →
      resolve name specs = (wildMatches name specs).head?) ∧
    (∀ (name : String) (specs : List String), name ∉ specs →
      (substrMatches name specs).length ≠ 1 → (wildMatches name specs).length ≠ 1 →
      resolve name specs = none) ∧
    resolve "py_c" specs3 = some "py_cpu" ∧
    resolve "p_g" specs3 = some "py_gpu" ∧
    resolve "py" specs3 = none := by
  refine ⟨?_, ?_, ?_, ?_, by decide, by decide, by decide⟩
  · intro name specs h
    simp [resolve, h]
  · intro name specs h1 h2
    simp [resolve, h1, h2]
  · intro name specs h1 h2 h3
    simp [resolve, h1, h2, h3]
  · intro name specs h1 h2 h3
    simp [resolve, h1, h2, h3]

/-- Witness for C1: the exact-match rule on a concrete snapshot. -/
theorem resolve_priority_witness :
    ("py_cpu" ∈ specs3) ∧ resolve "py_cpu" specs3 = some "py_cpu" :=
  ⟨by decide, resolve_priority.1 "py_cpu" specs3 (by decide)⟩

/-! ## C4: atomicity of result capture in `_execute_code` -/

/-- C4: for every `_execute_code` call, the captured results equal the merge
of the payload exactly when the execute reply status is ok, and are left
exactly as before the call otherwise; on a non-ok reply the remote exception
name and message are reported as an event, not raised (`kexecuteCode` is
total). -/
theorem execute_atomic_capture :
    ∀ (e : ExecEnv) (k : KernelState) (code : String) (dir : Option String)
      (outs : List String),
    (kexecuteCode e k code dir outs).1.captured =
      (if e.execOk then updateAssoc k.captured e.payload else k.captured) ∧
    (e.execOk = false →
      KEvent.execErrorReported e.ename e.evalue ∈ (kexecuteCode e k code dir outs).2) := by
  intro e k code dir outs
  cases ho : e.execOk <;> cases ha : k.alive <;>
    simp [kexecuteCode, krestart, ho, ha]

/-- Witness for C4: a concrete failing execution leaves the captured results
of `sampleKernel` untouched and reports the remote error. -/
theorem execute_atomic_capture_witness :
    (kexecuteCode failingExec sampleKernel "x=1/0" none ["x"]).1.captured =
      sampleKernel.captured ∧
    KEvent.execErrorReported "ZeroDivisionError" "division by zero" ∈
      (kexecuteCode failingExec sampleKernel "x=1/0" none ["x"]).2 := by
  have h := execute_atomic_capture failingExec sampleKernel "x=1/0" none ["x"]
  exact ⟨by simpa using h.1, h.2 rfl⟩

/-! ## C5: dead sessions are restarted inside `_execute_code` -/

/-- Counterexample for C5: a session that was started earlier
(`everStarted = true`) and has died is brought back by `start_kernel`
(`KEvent.startCalled`), not by `restart_kernel`: the event trace of the call
contains `startCalled` and no `restartCalled`, while the claim's
parenthetical says a previously started session is restarted. -/
theorem restart_branch_counterexample :
    deadKernel.everStarted = true ∧ deadKernel.alive = false ∧
    (kexecuteCode benignExec deadKernel "x=1" none []).2 =
      [KEvent.startCalled, KEvent.primed, KEvent.execSent "x=1" []] :=
  ⟨rfl, rfl, rfl⟩

/-- C5 (amended): a session not alive at the start of `_execute_code` is
transparently brought back — via a fresh `start_kernel` call, since the
branch in `_restart` tests liveness and not whether the kernel was ever
started — the priming exchange is re-run, the connection handle is replaced
(`clientGen` increments), and the call still sends the code and merges the
payload on an ok reply; the function is total, so the restart is never
surfaced and a dead session is never silently skipped. -/
theorem dead_session_restarted :
    ∀ (e : ExecEnv) (k : KernelState) (code : String) (dir : Option String)
      (outs : List String), k.alive = false →
    KEvent.startCalled ∈ (kexecuteCode e k code dir outs).2 ∧
    KEvent.primed ∈ (kexecuteCode e k code dir outs).2 ∧
    (kexecuteCode e k code dir outs).1.clientGen = k.clientGen + 1 ∧
    (kexecuteCode e k code dir outs).1.alive = true ∧
    KEvent.execSent code outs ∈ (kexecuteCode e k code dir outs).2 ∧
    (e.execOk = true →
      (kexecuteCode e k code dir outs).1.captured = updateAssoc k.captured e.payload) := by
  intro e k code dir outs ha
  cases ho : e.execOk <;> simp [kexecuteCode, krestart, ha, ho]

/-- Witness for C5 (amended): the dead sample session, with an ok reply. -/
theorem dead_session_restarted_witness :
    KEvent.startCalled ∈ (kexecuteCode benignExec deadKernel "x=2" none []).2 ∧
    KEvent.primed ∈ (kexecuteCode benignExec deadKernel "x=2" none []).2 ∧
    (kexecuteCode benignExec deadKernel "x=2" none []).1.clientGen =
      deadKernel.clientGen + 1 ∧
    (kexecuteCode benignExec deadKernel "x=2" none []).1.alive = true ∧
    KEvent.execSent "x=2" [] ∈ (kexecuteCode benignExec deadKernel "x=2" none []).2 ∧
    (kexecuteCode benignExec deadKernel "x=2" none []).1.captured =
      updateAssoc deadKernel.captured benignExec.payload := by
  have h := dead_session_restarted benignExec deadKernel "x=2" none [] rfl
  exact ⟨h.1, h.2.1, h.2.2.1, h.2.2.2.1, h.2.2.2.2.1, h.2.2.2.2.2 rfl⟩

/-! ## C7: shutdown is not idempotent in the source -/

/-- Counterexample for C7: two `_shutdown` calls on the same session send
two `shutdown_kernel` requests to the collaborator, so the second call is
not a no-op and does attempt a second process-terminate call. -/
theorem shutdown_twice_counterexample :
    sampleKernel.shutdownCalls = 0 ∧
    (kshutdown (kshutdown sampleKernel)).shutdownCalls = 2 :=
  ⟨rfl, rfl⟩

/-- C7 (amended): `_shutdown` unconditionally forwards `shutdown_kernel` to
the collaborator on every call — there is no `SHUTDOWN` state and no guard —
so each additional call attempts one additional process-terminate call. -/
theorem shutdown_unconditional :
    ∀ k : KernelState,
      (kshutdown k).shutdownCalls = k.shutdownCalls + 1 ∧
      (kshutdown (kshutdown k)).shutdownCalls = k.shutdownCalls + 2 := by
  intro k
  exact ⟨rfl, rfl⟩

/-! ## Counting creation events -/

theorem countCreated_append (l : String) (xs ys : List REvent) :
    countCreated l (xs ++ ys) = countCreated l xs + countCreated l ys := by
  simp [countCreated, List.filter_append]

theorem countCreated_cons_self (l : String) (i : Nat) (evs : List REvent) :
    countCreated l (REvent.created l i :: evs) = countCreated l evs + 1 := by
  simp [countCreated, List.filter_cons]

theorem countCreated_cons_ne (l l' : String) (i : Nat) (evs : List REvent)
    (h : ¬ l' = l) :
    countCreated l (REvent.created l' i :: evs) = countCreated l evs := by
  simp [countCreated, List.filter_cons, h]

theorem countCreated_zero (l : String) (evs : List REvent)
    (h : ∀ ev ∈ evs, isCreatedEvent ev = false) : countCreated l evs = 0 := by
  induction evs with
  | nil => rfl
  | cons ev t ih =>
    have h1 := h ev (List.mem_cons_self ev t)
    have h2 : ∀ x ∈ t, isCreatedEvent x = false :=
      fun x hx => h x (List.mem_cons_of_mem _ hx)
    cases ev with
    | created a b => simp [isCreatedEvent] at h1
    | terminate a b => simpa [countCreated, List.filter_cons] using ih h2
    | kev a b c => simpa [countCreated, List.filter_cons] using ih h2

/-! ## Membership facts about `_execute_code` traces -/

theorem kexec_execSent_mem (e : ExecEnv) (k : KernelState) (code : String)
    (dir : Option String) (outs : List String) :
    KEvent.execSent code outs ∈ (kexecuteCode e k code dir outs).2 := by
  cases ho : e.execOk <;> cases ha : k.alive <;>
    simp [kexecuteCode, krestart, ho, ha]

theorem kexec_execError_mem (e : ExecEnv) (k : KernelState) (code : String)
    (dir : Option String) (outs : List String) (h : e.execOk = false) :
    KEvent.execErrorReported e.ename e.evalue ∈ (kexecuteCode e k code dir outs).2 := by
  cases ha : k.alive <;> simp [kexecuteCode, krestart, h, ha]

/-! ## Lemmas about the session-creation loop -/

theorem createLoop_userNs_keeps (env : Env) (ls : List String) :
    ∀ (s : MagicsState) (l : String) (v : NsVal), lookupA s.userNs l = some v →
      lookupA (createLoop env ls s).state.userNs l = some v := by
  induction ls with
  | nil => intro s l v h; simpa [createLoop] using h
  | cons l' rest ih =>
    intro s l v h
    cases hb : lookupA s.userNs l' with
    | some v' =>
      simp only [createLoop, hb]
      exact ih _ l v h
    | none =>
      have hne : ¬ l' = l := by
        intro he
        rw [he, h] at hb
        cases hb
      cases hc : createKernel env l' with
      | error e =>
        simp only [createLoop, hb, hc]
        exact h
      | ok k =>
        simp only [createLoop, hb, hc]
        refine ih _ l v ?_
        rw [lookupA_setA_ne _ _ _ _ (fun he => hne he.symm)]
        exact h

theorem createLoop_nextId_le (env : Env) (ls : List String) :
    ∀ s : MagicsState, s.nextId ≤ (createLoop env ls s).state.nextId := by
  induction ls with
  | nil => intro s; simp [createLoop]
  | cons l' rest ih =>
    intro s
    cases hb : lookupA s.userNs l' with
    | some v' =>
      simp only [createLoop, hb]
      exact ih { s with registry := setA s.registry l' v' }
    | none =>
      cases hc : createKernel env l' with
      | error e =>
        simp only [createLoop, hb, hc]
        exact Nat.le_refl _
      | ok k =>
        simp only [createLoop, hb, hc]
        exact Nat.le_trans (Nat.le_succ _)
          (ih { s with heap := s.heap ++ [(s.nextId, k)], nextId := s.nextId + 1,
                       userNs := setA s.userNs l' (NsVal.kern s.nextId),
                       registry := setA s.registry l' (NsVal.kern s.nextId) })

theorem createLoop_events_created (env : Env) (ls : List String) :
    ∀ s : MagicsState, ∀ ev ∈ (createLoop env ls s).events, isCreatedEvent ev = true := by
  induction ls with
  | nil => intro s ev hev; simp [createLoop] at hev
  | cons l' rest ih =>
    intro s ev hev
    cases hb : lookupA s.userNs l' with
    | some v' =>
      simp only [createLoop, hb] at hev
      exact ih _ ev hev
    | none =>
      cases hc : createKernel env l' with
      | error e =>
        simp only [createLoop, hb, hc] at hev
        simp at hev
      | ok k =>
        simp only [createLoop, hb, hc] at hev
        rcases List.mem_cons.mp hev with hev1 | hev2
        · rw [hev1]; rfl
        · exact ih _ ev hev2

theorem createLoop_count_bound (env : Env) (ls : List String) :
    ∀ (s : MagicsState) (l : String) (v : NsVal), lookupA s.userNs l = some v →
      countCreated l (createLoop env ls s).events = 0 := by
  induction ls with
  | nil => intro s l v h; simp [createLoop, countCreated]
  | cons l' rest ih =>
    intro s l v h
    cases hb : lookupA s.userNs l' with
    | some v' =>
      simp only [createLoop, hb]
      exact ih _ l v h
    | none =>
      have hne : ¬ l' = l := by
        intro he
        rw [he, h] at hb
        cases hb
      cases hc : createKernel env l' with
      | error e =>
        simp only [createLoop, hb, hc]
        simp [countCreated]
      | ok k =>
        simp only [createLoop, hb, hc]
        rw [countCreated_cons_ne _ _ _ _ hne]
        refine ih _ l v ?_
        rw [lookupA_setA_ne _ _ _ _ (fun he => hne he.symm)]
        exact h

theorem createLoop_count_unbound (env : Env) (ls : List String) :
    ∀ (s : MagicsState) (l : String), l ∈ ls → lookupA s.userNs l = none →
      (createLoop env ls s).err = none →
      countCreated l (createLoop env ls s).events = 1 := by
  induction ls with
  | nil => intro s l hmem; simp at hmem
  | cons l' rest ih =>
    intro s l hmem hnb herr
    by_cases heq : l' = l
    · subst heq
      cases hc : createKernel env l' with
      | error e =>
        simp only [createLoop, hnb, hc] at herr
        cases herr
      | ok k =>
        simp only [createLoop, hnb, hc] at herr ⊢
        rw [countCreated_cons_self]
        rw [createLoop_count_bound env rest _ l' (NsVal.kern s.nextId)
          (lookupA_setA_self _ _ _)]
    · have hmem' : l ∈ rest := by
        rcases List.mem_cons.mp hmem with he | hm
        · exact absurd he.symm heq
        · exact hm
      cases hb : lookupA s.userNs l' with
      | some v' =>
        simp only [createLoop, hb] at herr ⊢
        exact ih { s with registry := setA s.registry l' v' } l hmem' hnb herr
      | none =>
        cases hc : createKernel env l' with
        | error e =>
          simp only [createLoop, hb, hc] at herr
          cases herr
        | ok k =>
          simp only [createLoop, hb, hc] at herr ⊢
          rw [countCreated_cons_ne _ _ _ _ heq]
          refine ih _ l hmem' ?_ herr
          rw [lookupA_setA_ne _ _ _ _ (fun he => heq he.symm)]
          exact hnb

theorem createLoop_all_bound (env : Env) (ls : List String) :
    ∀ (s : MagicsState) (l : String), l ∈ ls → (createLoop env ls s).err = none →
      ∃ v, lookupA (createLoop env ls s).state.userNs l = some v := by
  induction ls with
  | nil => intro s l hmem; simp at hmem
  | cons l' rest ih =>
    intro s l hmem herr
    by_cases heq : l' = l
    · subst heq
      cases hb : lookupA s.userNs l' with
      | some v' =>
        simp only [createLoop, hb] at herr ⊢
        exact ⟨v', createLoop_userNs_keeps env rest _ l' v' hb⟩
      | none =>
        cases hc : createKernel env l' with
        | error e =>
          simp only [createLoop, hb, hc] at herr
          cases herr
        | ok k =>
          simp only [createLoop, hb, hc] at herr ⊢
          exact ⟨NsVal.kern s.nextId,
            createLoop_userNs_keeps env rest _ l' _ (lookupA_setA_self _ _ _)⟩
    · have hmem' : l ∈ rest := by
        rcases List.mem_cons.mp hmem with he | hm
        · exact absurd he.symm heq
        · exact hm
      cases hb : lookupA s.userNs l' with
      | some v' =>
        simp only [createLoop, hb] at herr ⊢
        exact ih _ l hmem' herr
      | none =>
        cases hc : createKernel env l' with
        | error e =>
          simp only [createLoop, hb, hc] at herr
          cases herr
        | ok k =>
          simp only [createLoop, hb, hc] at herr ⊢
          exact ih _ l hmem' herr

theorem createLoop_created_fresh (env : Env) (ls : List String) :
    ∀ (s : MagicsState) (l : String), l ∈ ls → lookupA s.userNs l = none →
      (createLoop env ls s).err = none →
      ∃ i, s.nextId ≤ i ∧ REvent.created l i ∈ (createLoop env ls s).events ∧
        lookupA (createLoop env ls s).state.userNs l = some (NsVal.kern i) := by
  induction ls with
  | nil => intro s l hmem; simp at hmem
  | cons l' rest ih =>
    intro s l hmem hnb herr
    by_cases heq : l' = l
    · subst heq
      cases hc : createKernel env l' with
      | error e =>
        simp only [createLoop, hnb, hc] at herr
        cases herr
      | ok k =>
        simp only [createLoop, hnb, hc] at herr ⊢
        refine ⟨s.nextId, Nat.le_refl _, List.mem_cons_self _ _, ?_⟩
        exact createLoop_userNs_keeps env rest _ l' _ (lookupA_setA_self _ _ _)
    · have hmem' : l ∈ rest := by
        rcases List.mem_cons.mp hmem with he | hm
        · exact absurd he.symm heq
        · exact hm
      cases hb : lookupA s.userNs l' with
      | some v' =>
        simp only [createLoop, hb] at herr ⊢
        exact ih { s with registry := setA s.registry l' v' } l hmem' hnb herr
      | none =>
        cases hc : createKernel env l' with
        | error e =>
          simp only [createLoop, hb, hc] at herr
          cases herr
        | ok k =>
          simp only [createLoop, hb, hc] at herr ⊢
          have hnb' : lookupA (setA s.userNs l' (NsVal.kern s.nextId)) l = none := by
            rw [lookupA_setA_ne _ _ _ _ (fun he => heq he.symm)]
            exact hnb
          obtain ⟨i, hle, hmemev, hbind⟩ := ih _ l hmem' hnb' herr
          exact ⟨i, Nat.le_trans (Nat.le_succ _) hle,
            List.mem_cons_of_mem _ hmemev, hbind⟩

theorem createLoop_agree_keep (env : Env) (ls : List String) :
    ∀ (s : MagicsState) (l : String),
      lookupA s.registry l = lookupA s.userNs l →
      lookupA (createLoop env ls s).state.registry l =
        lookupA (createLoop env ls s).state.userNs l := by
  induction ls with
  | nil => intro s l h; simpa [createLoop] using h
  | cons l' rest ih =>
    intro s l h
    cases hb : lookupA s.userNs l' with
    | some v' =>
      simp only [createLoop, hb]
      refine ih _ l ?_
      by_cases heq : l' = l
      · subst heq
        rw [lookupA_setA_self]
        exact hb.symm
      · rw [lookupA_setA_ne _ _ _ _ (fun he => heq he.symm)]
        exact h
    | none =>
      cases hc : createKernel env l' with
      | error e =>
        simp only [createLoop, hb, hc]
        exact h
      | ok k =>
        simp only [createLoop, hb, hc]
        refine ih _ l ?_
        by_cases heq : l' = l
        · subst heq
          rw [lookupA_setA_self, lookupA_setA_self]
        · rw [lookupA_setA_ne _ _ _ _ (fun he => heq he.symm),
            lookupA_setA_ne _ _ _ _ (fun he => heq he.symm)]
          exact h

theorem createLoop_agree (env : Env) (ls : List String) :
    ∀ (s : MagicsState) (l : String), l ∈ ls → (createLoop env ls s).err = none →
      lookupA (createLoop env ls s).state.registry l =
        lookupA (createLoop env ls s).state.userNs l := by
  induction ls with
  | nil => intro s l hmem; simp at hmem
  | cons l' rest ih =>
    intro s l hmem herr
    by_cases heq : l' = l
    · subst heq
      cases hb : lookupA s.userNs l' with
      | some v' =>
        simp only [createLoop, hb]
        refine createLoop_agree_keep env rest _ l' ?_
        rw [lookupA_setA_self]
        exact hb.symm
      | none =>
        cases hc : createKernel env l' with
        | error e =>
          simp only [createLoop, hb, hc] at herr
          cases herr
        | ok k =>
          simp only [createLoop, hb, hc]
          refine createLoop_agree_keep env rest _ l' ?_
          rw [lookupA_setA_self, lookupA_setA_self]
    · have hmem' : l ∈ rest := by
        rcases List.mem_cons.mp hmem with he | hm
        · exact absurd he.symm heq
        · exact hm
      cases hb : lookupA s.userNs l' with
      | some v' =>
        simp only [createLoop, hb] at herr ⊢
        exact ih _ l hmem' herr
      | none =>
        cases hc : createKernel env l' with
        | error e =>
          simp only [createLoop, hb, hc] at herr
          cases herr
        | ok k =>
          simp only [createLoop, hb, hc] at herr ⊢
          exact ih _ l hmem' herr

/-! ## Lemmas about the shutdown and execution loops -/

theorem shutdownLoop_frame (ls : List String) :
    ∀ s : MagicsState, (shutdownLoop ls s).state.userNs = s.userNs ∧
      (shutdownLoop ls s).state.registry = s.registry ∧
      (shutdownLoop ls s).state.nextId = s.nextId := by
  induction ls with
  | nil => intro s; exact ⟨rfl, rfl, rfl⟩
  | cons l' rest ih =>
    intro s
    cases hb : lookupA s.userNs l' with
    | some v =>
      cases v with
      | kern i =>
        cases hh : lookupA s.heap i with
        | some k =>
          simp only [shutdownLoop, hb, hh]
          exact ih { s with heap := setA s.heap i (kshutdown k) }
        | none =>
          simp [shutdownLoop, hb, hh]
      | dict d =>
        simp [shutdownLoop, hb]
      | other =>
        simp [shutdownLoop, hb]
    | none =>
      simp [shutdownLoop, hb]

theorem shutdownLoop_no_created (ls : List String) :
    ∀ s : MagicsState, ∀ ev ∈ (shutdownLoop ls s).events, isCreatedEvent ev = false := by
  induction ls with
  | nil => intro s ev hev; simp [shutdownLoop] at hev
  | cons l' rest ih =>
    intro s ev hev
    cases hb : lookupA s.userNs l' with
    | some v =>
      cases v with
      | kern i =>
        cases hh : lookupA s.heap i with
        | some k =>
          simp only [shutdownLoop, hb, hh] at hev
          rcases List.mem_cons.mp hev with he | hm
          · rw [he]; rfl
          · exact ih _ ev hm
        | none =>
          simp only [shutdownLoop, hb, hh] at hev
          simp at hev
      | dict d =>
        simp only [shutdownLoop, hb] at hev
        simp at hev
      | other =>
        simp only [shutdownLoop, hb] at hev
        simp at hev
    | none =>
      simp only [shutdownLoop, hb] at hev
      simp at hev

theorem execLoop_frame (env : Env) (a : RunArgs) (code : String)
    (pairs : List (String × Option String)) :
    ∀ s : MagicsState, (execLoop env a code pairs s).state.userNs = s.userNs ∧
      (execLoop env a code pairs s).state.registry = s.registry ∧
      (execLoop env a code pairs s).state.nextId = s.nextId := by
  induction pairs with
  | nil => intro s; exact ⟨rfl, rfl, rfl⟩
  | cons q rest ih =>
    obtain ⟨l, d⟩ := q
    intro s
    cases hb : lookupA s.userNs l with
    | some v =>
      cases v with
      | kern i =>
        cases hh : lookupA s.heap i with
        | some k =>
          simp only [execLoop, hb, hh]
          exact ih _
        | none =>
          simp [execLoop, hb, hh]
      | dict dd =>
        simp [execLoop, hb]
      | other =>
        simp [execLoop, hb]
    | none =>
      simp [execLoop, hb]

theorem execLoop_no_created (env : Env) (a : RunArgs) (code : String)
    (pairs : List (String × Option String)) :
    ∀ s : MagicsState, ∀ ev ∈ (execLoop env a code pairs s).events,
      isCreatedEvent ev = false := by
  induction pairs with
  | nil => intro s ev hev; simp [execLoop] at hev
  | cons q rest ih =>
    obtain ⟨l, d⟩ := q
    intro s ev hev
    cases hb : lookupA s.userNs l with
    | some v =>
      cases v with
      | kern i =>
        cases hh : lookupA s.heap i with
        | some k =>
          simp only [execLoop, hb, hh] at hev
          rcases List.mem_append.mp hev with hm1 | hm2
          · rcases List.mem_map.mp hm1 with ⟨x, hx, he⟩
            rw [← he]; rfl
          · exact ih _ ev hm2
        | none =>
          simp only [execLoop, hb, hh] at hev
          simp at hev
      | dict dd =>
        simp only [execLoop, hb] at hev
        simp at hev
      | other =>
        simp only [execLoop, hb] at hev
        simp at hev
    | none =>
      simp only [execLoop, hb] at hev
      simp at hev

theorem execLoop_execSent (env : Env) (a : RunArgs) (code : String)
    (pairs : List (String × Option String)) :
    ∀ s : MagicsState, (execLoop env a code pairs s).err = none →
      ∀ p ∈ pairs, ∃ i cc,
        lookupA s.userNs p.1 = some (NsVal.kern i) ∧
        REvent.kev p.1 i (KEvent.execSent cc a.outputVars) ∈
          (execLoop env a code pairs s).events ∧
        ((env.execEnv p.1).execOk = false →
          REvent.kev p.1 i (KEvent.execErrorReported (env.execEnv p.1).ename
            (env.execEnv p.1).evalue) ∈ (execLoop env a code pairs s).events) := by
  induction pairs with
  | nil => intro s herr p hp; simp at hp
  | cons q rest ih =>
    obtain ⟨l, d⟩ := q
    intro s herr p hp
    cases hb : lookupA s.userNs l with
    | some v =>
      cases v with
      | kern i =>
        cases hh : lookupA s.heap i with
        | some k =>
          simp only [execLoop, hb, hh] at herr ⊢
          rcases List.mem_cons.mp hp with he | hm
          · subst he
            refine ⟨i, substCode s.userNs a.inputVars l code, hb, ?_, ?_⟩
            · exact List.mem_append_left _
                (List.mem_map_of_mem _ (kexec_execSent_mem _ _ _ _ _))
            · intro hfo
              exact List.mem_append_left _
                (List.mem_map_of_mem _ (kexec_execError_mem _ _ _ _ _ hfo))
          · obtain ⟨i', cc, hlk, hmem, himp⟩ := ih _ herr p hm
            refine ⟨i', cc, hlk, List.mem_append_right _ hmem, ?_⟩
            intro hfo
            exact List.mem_append_right _ (himp hfo)
        | none =>
          simp only [execLoop, hb, hh] at herr
          cases herr
      | dict dd =>
        simp only [execLoop, hb] at herr
        cases herr
      | other =>
        simp only [execLoop, hb] at herr
        cases herr
    | none =>
      simp only [execLoop, hb] at herr
      cases herr

/-! ## Lemmas about the run phases -/

theorem runPhase3_frame (env : Env) (a : RunArgs) (pairs : List (String × Option String))
    (r1 : RunResult) :
    (runPhase3 env a pairs r1).state.userNs = r1.state.userNs ∧
    (runPhase3 env a pairs r1).state.registry = r1.state.registry ∧
    (runPhase3 env a pairs r1).state.nextId = r1.state.nextId := by
  cases hf : a.shutdownFlag with
  | false =>
    simp only [runPhase3, hf, Bool.false_eq_true, if_false]
    rw [if_neg (combineCode_ne_empty a.codeArgs a.cell)]
    exact execLoop_frame env a (combineCode a.codeArgs a.cell) pairs r1.state
  | true =>
    simp only [runPhase3, hf, if_true]
    cases h2 : (shutdownLoop (pairs.map Prod.fst) r1.state).err with
    | some e =>
      simp only [h2]
      exact shutdownLoop_frame (pairs.map Prod.fst) r1.state
    | none =>
      simp only [h2]
      rw [if_neg (combineCode_ne_empty a.codeArgs a.cell)]
      have he := execLoop_frame env a (combineCode a.codeArgs a.cell) pairs
        (shutdownLoop (pairs.map Prod.fst) r1.state).state
      have hs := shutdownLoop_frame (pairs.map Prod.fst) r1.state
      exact ⟨he.1.trans hs.1, he.2.1.trans hs.2.1, he.2.2.trans hs.2.2⟩

theorem runPhase3_events (env : Env) (a : RunArgs) (pairs : List (String × Option String))
    (r1 : RunResult) :
    ∃ evs, (runPhase3 env a pairs r1).events = r1.events ++ evs ∧
      ∀ ev ∈ evs, isCreatedEvent ev = false := by
  cases hf : a.shutdownFlag with
  | false =>
    simp only [runPhase3, hf, Bool.false_eq_true, if_false]
    rw [if_neg (combineCode_ne_empty a.codeArgs a.cell)]
    refine ⟨(execLoop env a (combineCode a.codeArgs a.cell) pairs r1.state).events, ?_, ?_⟩
    · simp
    · exact execLoop_no_created env a _ pairs r1.state
  | true =>
    simp only [runPhase3, hf, if_true]
    cases h2 : (shutdownLoop (pairs.map Prod.fst) r1.state).err with
    | some e =>
      simp only [h2]
      exact ⟨(shutdownLoop (pairs.map Prod.fst) r1.state).events, rfl,
        shutdownLoop_no_created (pairs.map Prod.fst) r1.state⟩
    | none =>
      simp only [h2]
      rw [if_neg (combineCode_ne_empty a.codeArgs a.cell)]
      refine ⟨(shutdownLoop (pairs.map Prod.fst) r1.state).events ++
        (execLoop env a (combineCode a.codeArgs a.cell) pairs
          (shutdownLoop (pairs.map Prod.fst) r1.state).state).events, ?_, ?_⟩
      · rw [List.append_assoc]
      · intro ev hev
        rcases List.mem_append.mp hev with hm1 | hm2
        · exact shutdownLoop_no_created _ _ ev hm1
        · exact execLoop_no_created _ _ _ _ _ ev hm2

theorem runPhase3_exec (env : Env) (a : RunArgs) (pairs : List (String × Option String))
    (r1 : RunResult) (h : (runPhase3 env a pairs r1).err = none) :
    ∀ p ∈ pairs, ∃ i cc,
      lookupA r1.state.userNs p.1 = some (NsVal.kern i) ∧
      REvent.kev p.1 i (KEvent.execSent cc a.outputVars) ∈
        (runPhase3 env a pairs r1).events ∧
      ((env.execEnv p.1).execOk = false →
        REvent.kev p.1 i (KEvent.execErrorReported (env.execEnv p.1).ename
          (env.execEnv p.1).evalue) ∈ (runPhase3 env a pairs r1).events) := by
  intro p hp
  cases hf : a.shutdownFlag with
  | false =>
    simp only [runPhase3, hf, Bool.false_eq_true, if_false] at h ⊢
    rw [if_neg (combineCode_ne_empty a.codeArgs a.cell)] at h ⊢
    obtain ⟨i, cc, hlk, hmem, himp⟩ :=
      execLoop_execSent env a (combineCode a.codeArgs a.cell) pairs r1.state h p hp
    refine ⟨i, cc, hlk, ?_, ?_⟩
    · exact List.mem_append_right _ hmem
    · intro hfo
      exact List.mem_append_right _ (himp hfo)
  | true =>
    simp only [runPhase3, hf, if_true] at h ⊢
    cases h2 : (shutdownLoop (pairs.map Prod.fst) r1.state).err with
    | some e =>
      simp only [h2] at h
      cases h
    | none =>
      simp only [h2] at h ⊢
      rw [if_neg (combineCode_ne_empty a.codeArgs a.cell)] at h ⊢
      obtain ⟨i, cc, hlk, hmem, himp⟩ :=
        execLoop_execSent env a (combineCode a.codeArgs a.cell) pairs
          (shutdownLoop (pairs.map Prod.fst) r1.state).state h p hp
      rw [(shutdownLoop_frame (pairs.map Prod.fst) r1.state).1] at hlk
      refine ⟨i, cc, hlk, ?_, ?_⟩
      · exact List.mem_append_right _ hmem
      · intro hfo
        exact List.mem_append_right _ (himp hfo)

theorem runPhase2_inv (env : Env) (a : RunArgs) (pairs : List (String × Option String))
    (s : MagicsState) (h : (runPhase2 env a pairs s).err = none) :
    (createLoop env (pairs.map Prod.fst) s).err = none ∧
    runPhase2 env a pairs s =
      runPhase3 env a pairs (createLoop env (pairs.map Prod.fst) s) := by
  cases h1 : (createLoop env (pairs.map Prod.fst) s).err with
  | some e =>
    simp only [runPhase2, h1] at h
    cases h
  | none =>
    cases h2 : validateInputs (createLoop env (pairs.map Prod.fst) s).state.userNs
        (pairs.map Prod.fst) a.inputVars with
    | some e =>
      simp only [runPhase2, h1, h2] at h
      cases h
    | none =>
      refine ⟨rfl, ?_⟩
      simp only [runPhase2, h1, h2]

theorem runPhase2_frame (env : Env) (a : RunArgs) (pairs : List (String × Option String))
    (s : MagicsState) :
    (runPhase2 env a pairs s).state.userNs =
      (createLoop env (pairs.map Prod.fst) s).state.userNs ∧
    (runPhase2 env a pairs s).state.registry =
      (createLoop env (pairs.map Prod.fst) s).state.registry := by
  cases h1 : (createLoop env (pairs.map Prod.fst) s).err with
  | some e =>
    simp [runPhase2, h1]
  | none =>
    cases h2 : validateInputs (createLoop env (pairs.map Prod.fst) s).state.userNs
        (pairs.map Prod.fst) a.inputVars with
    | some e =>
      simp [runPhase2, h1, h2]
    | none =>
      simp only [runPhase2, h1, h2]
      have h3 := runPhase3_frame env a pairs (createLoop env (pairs.map Prod.fst) s)
      exact ⟨h3.1, h3.2.1⟩

theorem runPhase2_events (env : Env) (a : RunArgs) (pairs : List (String × Option String))
    (s : MagicsState) :
    ∃ evs, (runPhase2 env a pairs s).events =
        (createLoop env (pairs.map Prod.fst) s).events ++ evs ∧
      ∀ ev ∈ evs, isCreatedEvent ev = false := by
  cases h1 : (createLoop env (pairs.map Prod.fst) s).err with
  | some e =>
    simp only [runPhase2, h1]
    exact ⟨[], (List.append_nil _).symm, by simp⟩
  | none =>
    cases h2 : validateInputs (createLoop env (pairs.map Prod.fst) s).state.userNs
        (pairs.map Prod.fst) a.inputVars with
    | some e =>
      simp only [runPhase2, h1, h2]
      exact ⟨[], (List.append_nil _).symm, by simp⟩
    | none =>
      simp only [runPhase2, h1, h2]
      exact runPhase3_events env a pairs (createLoop env (pairs.map Prod.fst) s)

/-! ## General facts about a whole `run` -/

theorem run_userNs_keeps (env : Env) (a : RunArgs) (s : MagicsState) (l : String)
    (v : NsVal) (h : lookupA s.userNs l = some v) :
    lookupA (run env a s).state.userNs l = some v := by
  cases hp : parseLabels a.kernelsArg with
  | error e =>
    simp only [run, hp]
    exact h
  | ok pairs =>
    simp only [run, hp]
    rw [(runPhase2_frame env a pairs s).1]
    exact createLoop_userNs_keeps env _ s l v h

theorem run_count_bound (env : Env) (a : RunArgs) (s : MagicsState) (l : String)
    (v : NsVal) (h : lookupA s.userNs l = some v) :
    countCreated l (run env a s).events = 0 := by
  cases hp : parseLabels a.kernelsArg with
  | error e =>
    simp only [run, hp]
    rfl
  | ok pairs =>
    simp only [run, hp]
    obtain ⟨evs, hev, hno⟩ := runPhase2_events env a pairs s
    rw [hev, countCreated_append, createLoop_count_bound env _ s l v h,
      countCreated_zero l evs hno]

theorem run_ok_parts (env : Env) (a : RunArgs) (s : MagicsState)
    (pairs : List (String × Option String))
    (hp : parseLabels a.kernelsArg = Except.ok pairs)
    (h : (run env a s).err = none) :
    (createLoop env (pairs.map Prod.fst) s).err = none ∧
    (∀ p ∈ pairs, ∃ i cc,
      lookupA (createLoop env (pairs.map Prod.fst) s).state.userNs p.1 =
        some (NsVal.kern i) ∧
      REvent.kev p.1 i (KEvent.execSent cc a.outputVars) ∈ (run env a s).events ∧
      ((env.execEnv p.1).execOk = false →
        REvent.kev p.1 i (KEvent.execErrorReported (env.execEnv p.1).ename
          (env.execEnv p.1).evalue) ∈ (run env a s).events)) := by
  have hrun : run env a s = runPhase2 env a pairs s := by
    simp only [run, hp]
  rw [hrun] at h ⊢
  obtain ⟨hc, heq⟩ := runPhase2_inv env a pairs s h
  rw [heq] at h ⊢
  exact ⟨hc, fun p hp' => runPhase3_exec env a pairs _ h p hp'⟩

/-! ## Error shapes of the later phases -/

theorem shutdownLoop_err_attr (ls : List String) :
    ∀ (s : MagicsState) (e : RunError), (shutdownLoop ls s).err = some e →
      ∃ l, e = RunError.attrError l := by
  induction ls with
  | nil => intro s e h; cases h
  | cons l' rest ih =>
    intro s e h
    cases hb : lookupA s.userNs l' with
    | some v =>
      cases v with
      | kern i =>
        cases hh : lookupA s.heap i with
        | some k =>
          simp only [shutdownLoop, hb, hh] at h
          exact ih _ e h
        | none =>
          simp only [shutdownLoop, hb, hh] at h
          exact ⟨l', (Option.some.inj h).symm⟩
      | dict d =>
        simp only [shutdownLoop, hb] at h
        exact ⟨l', (Option.some.inj h).symm⟩
      | other =>
        simp only [shutdownLoop, hb] at h
        exact ⟨l', (Option.some.inj h).symm⟩
    | none =>
      simp only [shutdownLoop, hb] at h
      exact ⟨l', (Option.some.inj h).symm⟩

theorem execLoop_err_attr (env : Env) (a : RunArgs) (code : String)
    (pairs : List (String × Option String)) :
    ∀ (s : MagicsState) (e : RunError), (execLoop env a code pairs s).err = some e →
      ∃ l, e = RunError.attrError l := by
  induction pairs with
  | nil => intro s e h; cases h
  | cons q rest ih =>
    obtain ⟨l, d⟩ := q
    intro s e h
    cases hb : lookupA s.userNs l with
    | some v =>
      cases v with
      | kern i =>
        cases hh : lookupA s.heap i with
        | some k =>
          simp only [execLoop, hb, hh] at h
          exact ih _ e h
        | none =>
          simp only [execLoop, hb, hh] at h
          exact ⟨l, (Option.some.inj h).symm⟩
      | dict dd =>
        simp only [execLoop, hb] at h
        exact ⟨l, (Option.some.inj h).symm⟩
      | other =>
        simp only [execLoop, hb] at h
        exact ⟨l, (Option.some.inj h).symm⟩
    | none =>
      simp only [execLoop, hb] at h
      exact ⟨l, (Option.some.inj h).symm⟩

theorem runPhase3_err_attr (env : Env) (a : RunArgs)
    (pairs : List (String × Option String)) (r1 : RunResult) (e : RunError)
    (h : (runPhase3 env a pairs r1).err = some e) :
    ∃ l, e = RunError.attrError l := by
  cases hf : a.shutdownFlag with
  | false =>
    simp only [runPhase3, hf, Bool.false_eq_true, if_false] at h
    rw [if_neg (combineCode_ne_empty a.codeArgs a.cell)] at h
    exact execLoop_err_attr env a _ pairs r1.state e h
  | true =>
    simp only [runPhase3, hf, if_true] at h
    cases h2 : (shutdownLoop (pairs.map Prod.fst) r1.state).err with
    | some e2 =>
      simp only [h2] at h
      obtain ⟨l, hl⟩ := shutdownLoop_err_attr (pairs.map Prod.fst) r1.state e2 h2
      exact ⟨l, (Option.some.inj h) ▸ hl⟩
    | none =>
      simp only [h2] at h
      rw [if_neg (combineCode_ne_empty a.codeArgs a.cell)] at h
      exact execLoop_err_attr env a _ pairs _ e h

/-! ## Counting colons in label arguments -/

theorem splitOnChar_ne_nil (sep : Char) (cs : List Char) : splitOnChar sep cs ≠ [] := by
  cases cs with
  | nil => simp [splitOnChar]
  | cons c t =>
    simp only [splitOnChar]
    cases splitOnChar sep t with
    | nil => simp
    | cons s ss =>
      cases h : (c == sep) <;> simp [h]

theorem splitOnChar_length (sep : Char) :
    ∀ cs : List Char, (splitOnChar sep cs).length = countChar sep cs + 1 := by
  intro cs
  induction cs with
  | nil => rfl
  | cons c t ih =>
    simp only [splitOnChar, countChar]
    cases hsp : splitOnChar sep t with
    | nil => exact absurd hsp (splitOnChar_ne_nil sep t)
    | cons s ss =>
      rw [hsp] at ih
      simp only [List.length_cons] at ih
      cases h : (c == sep) with
      | true =>
        simp only [h, if_true, List.length_cons]
        omega
      | false =>
        simp only [h, Bool.false_eq_true, if_false, List.length_cons]
        omega

theorem containsChar_count (c : Char) :
    ∀ cs : List Char, containsChar c cs = true ↔ 1 ≤ countChar c cs := by
  intro cs
  induction cs with
  | nil => simp [containsChar, countChar]
  | cons d t ih =>
    simp only [containsChar, countChar, Bool.or_eq_true]
    cases h : (d == c) with
    | true =>
      simp only [h, if_true]
      constructor
      · intro _
        omega
      · intro _
        exact Or.inl trivial
    | false =>
      simp only [h, Bool.false_eq_true, if_false, Nat.zero_add]
      constructor
      · intro hor
        rcases hor with h1 | h2
        · cases h1
        · exact ih.mp h2
      · intro hge
        exact Or.inr (ih.mpr hge)

theorem parseLabel_ok_of_le_one (l : String) (h : countColons l ≤ 1) :
    ∃ p, parseLabel l = Except.ok p := by
  cases hc : containsChar ':' l.toList with
  | false =>
    have hc' : containsChar ':' l.data = false := hc
    exact ⟨(l, none), by simp [parseLabel, hc']⟩
  | true =>
    have hc' : containsChar ':' l.data = true := hc
    have h1 : 1 ≤ countChar ':' l.toList := (containsChar_count ':' l.toList).mp hc
    have h2 : countChar ':' l.toList = 1 := by
      unfold countColons at h
      omega
    have h3 : (splitOnChar ':' l.toList).length = 2 := by
      rw [splitOnChar_length, h2]
    cases hsp : splitOnChar ':' l.toList with
    | nil =>
      rw [hsp] at h3
      simp only [List.length_nil] at h3
      omega
    | cons a rest =>
      cases rest with
      | nil =>
        rw [hsp] at h3
        simp only [List.length_cons, List.length_nil] at h3
        omega
      | cons b rest2 =>
        cases rest2 with
        | nil =>
          have hsp' : splitOnChar ':' l.data = [a, b] := hsp
          exact ⟨(String.mk a, some (String.mk b)), by simp [parseLabel, hc', hsp']⟩
        | cons x xs =>
          rw [hsp] at h3
          simp only [List.length_cons] at h3
          omega

theorem parseLabel_error_of_ge_two (l : String) (h : 2 ≤ countColons l) :
    parseLabel l = Except.error (RunError.unpack l) := by
  have hc : containsChar ':' l.toList = true := by
    refine (containsChar_count ':' l.toList).mpr ?_
    unfold countColons at h
    omega
  have hc' : containsChar ':' l.data = true := hc
  have h3 : 3 ≤ (splitOnChar ':' l.toList).length := by
    rw [splitOnChar_length]
    unfold countColons at h
    omega
  cases hsp : splitOnChar ':' l.toList with
  | nil =>
    rw [hsp] at h3
    simp only [List.length_nil] at h3
    omega
  | cons a rest =>
    cases rest with
    | nil =>
      rw [hsp] at h3
      simp only [List.length_cons, List.length_nil] at h3
      omega
    | cons b rest2 =>
      cases rest2 with
      | nil =>
        rw [hsp] at h3
        simp only [List.length_cons, List.length_nil] at h3
        omega
      | cons x xs =>
        have hsp' : splitOnChar ':' l.data = a :: b :: x :: xs := hsp
        simp [parseLabel, hc', hsp']

theorem parseLabels_ok_iff (ls : List String) :
    (∃ ps, parseLabels ls = Except.ok ps) ↔ ∀ l ∈ ls, countColons l ≤ 1 := by
  induction ls with
  | nil => simp [parseLabels]
  | cons l rest ih =>
    constructor
    · rintro ⟨ps, hps⟩ l' hl'
      cases hpl : parseLabel l with
      | error e =>
        simp only [parseLabels, hpl] at hps
        cases hps
      | ok p =>
        cases hrest : parseLabels rest with
        | error e =>
          simp only [parseLabels, hpl, hrest] at hps
          cases hps
        | ok ps2 =>
          rcases List.mem_cons.mp hl' with he | hm
          · subst he
            by_cases hcnt : countColons l' ≤ 1
            · exact hcnt
            · have hbad := parseLabel_error_of_ge_two l' (by omega)
              rw [hbad] at hpl
              cases hpl
          · exact (ih.mp ⟨ps2, hrest⟩) l' hm
    · intro h
      obtain ⟨p, hp⟩ := parseLabel_ok_of_le_one l (h l (List.mem_cons_self _ _))
      obtain ⟨ps2, hps2⟩ := ih.mpr (fun x hx => h x (List.mem_cons_of_mem _ hx))
      exact ⟨p :: ps2, by simp [parseLabels, hp, hps2]⟩

theorem parseLabels_error_unpack (ls : List String)
    (h : ∃ l ∈ ls, 2 ≤ countColons l) :
    ∃ l', parseLabels ls = Except.error (RunError.unpack l') ∧ 2 ≤ countColons l' := by
  induction ls with
  | nil =>
    obtain ⟨l, hl, _⟩ := h
    simp at hl
  | cons l rest ih =>
    by_cases hc : 2 ≤ countColons l
    · refine ⟨l, ?_, hc⟩
      simp [parseLabels, parseLabel_error_of_ge_two l hc]
    · have hrest : ∃ x ∈ rest, 2 ≤ countColons x := by
        obtain ⟨x, hx, hcx⟩ := h
        rcases List.mem_cons.mp hx with he | hm
        · subst he
          exact absurd hcx hc
        · exact ⟨x, hm, hcx⟩
      obtain ⟨l', hl', hc'⟩ := ih hrest
      obtain ⟨p, hp⟩ := parseLabel_ok_of_le_one l (by omega)
      exact ⟨l', by simp [parseLabels, hp, hl'], hc'⟩

/-! ## C10: labels with two or more colons abort during parsing -/

/-- C10: any label argument holding two or more colons makes `run` fail
during the `label:directory` split — the state is returned untouched and no
event (no session creation, no execution) has happened — with the
too-many-values unpacking error naming an offending label; and a label list
is accepted by the parser exactly when every label holds at most one
colon. -/
theorem colon_parse_guard :
    (∀ (env : Env) (a : RunArgs) (s : MagicsState),
      (∃ l ∈ a.kernelsArg, 2 ≤ countColons l) →
      (run env a s).state = s ∧ (run env a s).events = [] ∧
      ∃ l', 2 ≤ countColons l' ∧ (run env a s).err = some (RunError.unpack l')) ∧
    (∀ ls : List String, (∃ ps, parseLabels ls = Except.ok ps) ↔
      ∀ l ∈ ls, countColons l ≤ 1) := by
  constructor
  · intro env a s hbad
    obtain ⟨l', herr, hc⟩ := parseLabels_error_unpack a.kernelsArg hbad
    refine ⟨?_, ?_, l', hc, ?_⟩ <;> simp [run, herr]
  · exact parseLabels_ok_iff

/-- Witness for C10: the label `a:b:c` aborts a run on a fresh shell. -/
theorem colon_parse_guard_witness :
    (run envSpecs3 argsColon emptyState).state = emptyState ∧
    (run envSpecs3 argsColon emptyState).events = [] ∧
    ∃ l', 2 ≤ countColons l' ∧
      (run envSpecs3 argsColon emptyState).err = some (RunError.unpack l') :=
  colon_parse_guard.1 envSpecs3 argsColon emptyState ⟨"a:b:c", by decide, by decide⟩

/-! ## C2: input validation happens after session creation -/

/-- Counterexample for C2: with `inputSubstitutions = {"cfg": {"a": "1"}}`
and labels `a,b`, the `MissingInputKeyError` naming `b` is indeed raised and
no code is executed, but sessions for both labels have already been created
when it is raised — the creation loop (source lines 215-218) runs before the
validation loop (lines 225-230) — refuting the claim that the error comes
before any session is created or touched. -/
theorem validation_counterexample :
    (run envAB argsValidation stateValidation).err =
      some (RunError.missingInputKey "b" "cfg") ∧
    countCreated "a" (run envAB argsValidation stateValidation).events = 1 ∧
    countCreated "b" (run envAB argsValidation stateValidation).events = 1 := by
  refine ⟨by decide, by decide, by decide⟩

/-- C2 (amended): an incomplete input substitution (a name unbound or not a
dictionary, or a label missing from a present dictionary) makes `run` raise
the corresponding validation error after the per-label sessions have been
created and cached but before any shutdown request or code execution: on the
claim's example the error names `b` and the trace holds exactly the two
creation events, and in general a run aborted by a validation error has a
trace consisting of creation events only. -/
theorem validation_after_creation :
    ((run envAB argsValidation stateValidation).err =
      some (RunError.missingInputKey "b" "cfg") ∧
     (run envAB argsValidation stateValidation).events =
      [REvent.created "a" 0, REvent.created "b" 1]) ∧
    (∀ (env : Env) (a : RunArgs) (s : MagicsState) (e : RunError),
      (run env a s).err = some e → isValidationError e = true →
      ∀ ev ∈ (run env a s).events, isCreatedEvent ev = true) := by
  constructor
  · exact ⟨by decide, by decide⟩
  · intro env a s e herr hval ev hev
    cases hp : parseLabels a.kernelsArg with
    | error e2 =>
      simp only [run, hp] at hev
      simp at hev
    | ok pairs =>
      simp only [run, hp] at herr hev
      cases h1 : (createLoop env (pairs.map Prod.fst) s).err with
      | some e1 =>
        simp only [runPhase2, h1] at hev
        exact createLoop_events_created env _ s ev hev
      | none =>
        cases h2 : validateInputs (createLoop env (pairs.map Prod.fst) s).state.userNs
            (pairs.map Prod.fst) a.inputVars with
        | some e2 =>
          simp only [runPhase2, h1, h2] at hev
          exact createLoop_events_created env _ s ev hev
        | none =>
          simp only [runPhase2, h1, h2] at herr
          obtain ⟨l, hl⟩ := runPhase3_err_attr env a pairs _ e herr
          rw [hl] at hval
          simp [isValidationError] at hval

/-- Witness for C2 (amended): the general part applied to the claim's
concrete example. -/
theorem validation_after_creation_witness :
    isCreatedEvent (REvent.created "a" 0) = true :=
  validation_after_creation.2 envAB argsValidation stateValidation
    (RunError.missingInputKey "b" "cfg") (by decide) (by decide)
    (REvent.created "a" 0) (by decide)

/-! ## C3: only execution failures are isolated per label -/

/-- Counterexample for C3: in a two-label batch whose first label fails
resolution, the `ValueError` propagates out of `run` and the trace is empty:
the second label is never processed (no session created, nothing executed),
so a resolution failure is not isolated and does abort the whole call. -/
theorem batch_abort_counterexample :
    argsBadFirst.kernelsArg.length = 2 ∧
    (run envSpecs3 argsBadFirst emptyState).err = some (RunError.resolution "zz") ∧
    (run envSpecs3 argsBadFirst emptyState).events = [] := by
  refine ⟨by decide, by decide, by decide⟩

/-- C3 (amended): execution failures are isolated per label — whenever `run`
returns without raising, every parsed label received its execute message, and
a label whose kernel replied non-ok got the remote error reported in the
trace while the batch still went on — but resolution and start failures
raise out of the creation loop and abort the whole call. -/
theorem exec_failures_isolated :
    ∀ (env : Env) (a : RunArgs) (s : MagicsState)
      (pairs : List (String × Option String)),
      parseLabels a.kernelsArg = Except.ok pairs →
      (run env a s).err = none →
      ∀ p ∈ pairs, ∃ i cc,
        REvent.kev p.1 i (KEvent.execSent cc a.outputVars) ∈ (run env a s).events ∧
        ((env.execEnv p.1).execOk = false →
          REvent.kev p.1 i (KEvent.execErrorReported (env.execEnv p.1).ename
            (env.execEnv p.1).evalue) ∈ (run env a s).events) := by
  intro env a s pairs hp h p hp'
  obtain ⟨hc, hexec⟩ := run_ok_parts env a s pairs hp h
  obtain ⟨i, cc, _, hmem, himp⟩ := hexec p hp'
  exact ⟨i, cc, hmem, himp⟩

/-- Witness for C3 (amended): with the kernel behind `py_cpu` failing every
execution, the batch still executes on `py_gpu`. -/
theorem exec_failures_isolated_witness :
    (envMixed.execEnv "py_cpu").execOk = false ∧
    (∃ i cc, REvent.kev "py_gpu" i (KEvent.execSent cc argsTwo.outputVars) ∈
      (run envMixed argsTwo emptyState).events ∧
      ((envMixed.execEnv "py_gpu").execOk = false →
        REvent.kev "py_gpu" i (KEvent.execErrorReported (envMixed.execEnv "py_gpu").ename
          (envMixed.execEnv "py_gpu").evalue) ∈ (run envMixed argsTwo emptyState).events)) := by
  constructor
  · decide
  · exact exec_failures_isolated envMixed argsTwo emptyState
      [("py_cpu", none), ("py_gpu", none)] (by rfl) (by decide)
      ("py_gpu", none) (by decide)

/-! ## C6: one session per label, reused across runs -/

/-- C6: for a duplicate-free label list, a completed `run` creates exactly
one session per label that was not yet bound, leaves every existing binding
untouched (creating nothing for it), and a re-invocation on the resulting
state — even after every kernel process has died — creates no session for
any of the labels and leaves their bindings unchanged. -/
theorem session_cache_reuse :
    ∀ (env : Env) (a : RunArgs) (s : MagicsState)
      (pairs : List (String × Option String)),
      parseLabels a.kernelsArg = Except.ok pairs →
      (pairs.map Prod.fst).Nodup →
      (run env a s).err = none →
      (∀ l ∈ pairs.map Prod.fst, lookupA s.userNs l = none →
        countCreated l (run env a s).events = 1) ∧
      (∀ (l : String) (v : NsVal), lookupA s.userNs l = some v →
        countCreated l (run env a s).events = 0 ∧
        lookupA (run env a s).state.userNs l = some v) ∧
      (∀ (env2 : Env) (a2 : RunArgs), ∀ l ∈ pairs.map Prod.fst,
        countCreated l (run env2 a2 (killAll (run env a s).state)).events = 0 ∧
        lookupA (run env2 a2 (killAll (run env a s).state)).state.userNs l =
          lookupA (run env a s).state.userNs l) := by
  intro env a s pairs hp hnd h
  have hrun : run env a s = runPhase2 env a pairs s := by
    simp only [run, hp]
  have hc : (createLoop env (pairs.map Prod.fst) s).err = none := by
    rw [hrun] at h
    exact (runPhase2_inv env a pairs s h).1
  refine ⟨?_, ?_, ?_⟩
  · intro l hl hnb
    rw [hrun]
    obtain ⟨evs, hev, hno⟩ := runPhase2_events env a pairs s
    rw [hev, countCreated_append,
      createLoop_count_unbound env _ s l hl hnb hc, countCreated_zero l evs hno]
  · intro l v hv
    exact ⟨run_count_bound env a s l v hv, run_userNs_keeps env a s l v hv⟩
  · intro env2 a2 l hl
    obtain ⟨v, hv⟩ : ∃ v, lookupA (run env a s).state.userNs l = some v := by
      rw [hrun, (runPhase2_frame env a pairs s).1]
      exact createLoop_all_bound env _ s l hl hc
    have hv2 : lookupA (killAll (run env a s).state).userNs l = some v := hv
    refine ⟨run_count_bound env2 a2 _ l v hv2, ?_⟩
    rw [run_userNs_keeps env2 a2 _ l v hv2, hv]

/-- Witness for C6: a one-label batch on a fresh shell creates exactly one
session, and re-running after every kernel died creates none. -/
theorem session_cache_reuse_witness :
    countCreated "py_cpu" (run envSpecs3 argsOne emptyState).events = 1 ∧
    countCreated "py_cpu"
      (run envSpecs3 argsOne (killAll (run envSpecs3 argsOne emptyState).state)).events
      = 0 := by
  have h := session_cache_reuse envSpecs3 argsOne emptyState [("py_cpu", none)]
    (by rfl) (by decide) (by decide)
  exact ⟨h.1 "py_cpu" (by decide) (by decide),
    (h.2.2 envSpecs3 argsOne "py_cpu" (by decide)).1⟩

/-! ## C9: the user namespace, not the registry, decides reuse -/

/-- C9: whenever a label is unbound in the user namespace, a completed `run`
constructs a fresh session for it (a creation event with a fresh heap id)
regardless of what `self.kernels` still holds, and binds the new session in
both the namespace and the registry; and for every processed label the
registry ends up mirroring the namespace binding, which is the session the
execute message was sent to. -/
theorem namespace_governs_reuse :
    ∀ (env : Env) (a : RunArgs) (s : MagicsState)
      (pairs : List (String × Option String)),
      parseLabels a.kernelsArg = Except.ok pairs →
      (run env a s).err = none →
      (∀ l ∈ pairs.map Prod.fst, lookupA s.userNs l = none →
        ∃ i, s.nextId ≤ i ∧ REvent.created l i ∈ (run env a s).events ∧
          lookupA (run env a s).state.userNs l = some (NsVal.kern i) ∧
          lookupA (run env a s).state.registry l = some (NsVal.kern i)) ∧
      (∀ l ∈ pairs.map Prod.fst,
        lookupA (run env a s).state.registry l =
          lookupA (run env a s).state.userNs l ∧
        ∃ i cc, lookupA (run env a s).state.userNs l = some (NsVal.kern i) ∧
          REvent.kev l i (KEvent.execSent cc a.outputVars) ∈ (run env a s).events) := by
  intro env a s pairs hp h
  have hrun : run env a s = runPhase2 env a pairs s := by
    simp only [run, hp]
  have h2 : (runPhase2 env a pairs s).err = none := by
    rw [hrun] at h
    exact h
  have hc := (runPhase2_inv env a pairs s h2).1
  have hfr := runPhase2_frame env a pairs s
  constructor
  · intro l hl hnb
    obtain ⟨i, hle, hmemev, hbind⟩ := createLoop_created_fresh env _ s l hl hnb hc
    obtain ⟨evs, hev, hno⟩ := runPhase2_events env a pairs s
    refine ⟨i, hle, ?_, ?_, ?_⟩
    · rw [hrun, hev]
      exact List.mem_append_left _ hmemev
    · rw [hrun, hfr.1]
      exact hbind
    · rw [hrun, hfr.2, createLoop_agree env _ s l hl hc]
      exact hbind
  · intro l hl
    have hagree : lookupA (run env a s).state.registry l =
        lookupA (run env a s).state.userNs l := by
      rw [hrun, hfr.1, hfr.2]
      exact createLoop_agree env _ s l hl hc
    refine ⟨hagree, ?_⟩
    obtain ⟨p, hpmem, hpfst⟩ := List.mem_map.mp hl
    obtain ⟨hc', hexec⟩ := run_ok_parts env a s pairs hp h
    obtain ⟨i, cc, hlk, hmem, _⟩ := hexec p hpmem
    refine ⟨i, cc, ?_, ?_⟩
    · rw [hrun, hfr.1, ← hpfst]
      exact hlk
    · rw [← hpfst]
      exact hmem

/-- Witness for C9: the registry holds a stale entry for `py_cpu` while the
namespace does not bind the label, and the run constructs a fresh session
and overwrites both. -/
theorem namespace_governs_reuse_witness :
    lookupA stateRegistryGhost.userNs "py_cpu" = none ∧
    lookupA stateRegistryGhost.registry "py_cpu" = some (NsVal.kern 77) ∧
    ∃ i, stateRegistryGhost.nextId ≤ i ∧
      REvent.created "py_cpu" i ∈ (run envSpecs3 argsOne stateRegistryGhost).events ∧
      lookupA (run envSpecs3 argsOne stateRegistryGhost).state.userNs "py_cpu" =
        some (NsVal.kern i) ∧
      lookupA (run envSpecs3 argsOne stateRegistryGhost).state.registry "py_cpu" =
        some (NsVal.kern i) := by
  refine ⟨by decide, by decide, ?_⟩
  exact (namespace_governs_reuse envSpecs3 argsOne stateRegistryGhost
    [("py_cpu", none)] (by rfl) (by decide)).1 "py_cpu" (by decide) (by decide)

/-! ## C8: the combined code string is never empty, so the guard is dead -/

/-- C8 (code bug): a line-magic invocation with no trailing code words and
no cell still executes: the combination `' '.join(args.code) + '\n' + code`
is the string consisting of one newline, which is truthy, so the guarded
per-label loop runs and `_execute_code` is called with that newline on the
label's session; in general the combined code string is never empty, making
the `if code:` guard of line 244 unreachable in its false branch. -/
theorem empty_code_executes :
    combineCode argsNoCode.codeArgs argsNoCode.cell = "\n" ∧
    (∀ (ca : List String) (c : Option String), (combineCode ca c == "") = false) ∧
    REvent.kev "py_cpu" 0 (KEvent.execSent "\n" []) ∈
      (run envSpecs3 argsNoCode emptyState).events := by
  refine ⟨by decide, ?_, by decide⟩
  intro ca c
  rw [beq_eq_false_iff_ne]
  exact combineCode_ne_empty ca c

end RemoteExec
